import Mathlib

set_option maxRecDepth 4096

/-!
Verification development for the EFI variable access layer of
`sdboot-oneshot`: the UTF-16 codec (`sdboot/src/write.rs`,
`sdboot/src/read.rs`), the growable-buffer reader (`read_u16_bytes`),
the variable manager (`sdboot/src/manager.rs`) and the filesystem
immutability guard (`src/attributes.rs`), shallowly embedded over
`List Nat` byte/code-unit buffers and an explicit filesystem state.
-/

namespace Sdboot

/-! ### UTF-16 encoding (`value.encode_utf16()` in `write.rs`) -/

/-- UTF-16 code units of a single character, as produced by Rust's
`char::encode_utf16`: one unit for BMP scalars, a surrogate pair for
the rest. -/
def encodeChar (c : Char) : List Nat :=
  if c.toNat < 0x10000 then [c.toNat]
  else
    let v := c.toNat - 0x10000
    [0xD800 + v / 0x400, 0xDC00 + v % 0x400]

/-- UTF-16 code units of a string (`value.encode_utf16()` iterated). -/
def utf16EncodeUnits : List Char → List Nat
  | [] => []
  | c :: rest => encodeChar c ++ utf16EncodeUnits rest

/-- Decoding of a UTF-16 code-unit sequence, as performed by Rust's
`String::from_utf16`: `none` on any unpaired or out-of-order surrogate. -/
def utf16Decode : List Nat → Option (List Char)
  | [] => some []
  | [u] =>
    if u < 0xD800 ∨ (0xDFFF < u ∧ u < 0x10000) then some [Char.ofNat u] else none
  | u :: u2 :: rest =>
    if u < 0xD800 ∨ (0xDFFF < u ∧ u < 0x10000) then
      (utf16Decode (u2 :: rest)).map (Char.ofNat u :: ·)
    else if (0xD800 ≤ u ∧ u < 0xDC00) ∧ (0xDC00 ≤ u2 ∧ u2 < 0xE000) then
      (utf16Decode rest).map (Char.ofNat (0x10000 + (u - 0xD800) * 0x400 + (u2 - 0xDC00)) :: ·)
    else none

/-- Lossy decoding of a UTF-16 code-unit sequence, as performed by Rust's
`String::from_utf16_lossy`: each ill-formed unit becomes U+FFFD. -/
def utf16Lossy : List Nat → List Char
  | [] => []
  | [u] =>
    if u < 0xD800 ∨ (0xDFFF < u ∧ u < 0x10000) then [Char.ofNat u] else [Char.ofNat 0xFFFD]
  | u :: u2 :: rest =>
    if u < 0xD800 ∨ (0xDFFF < u ∧ u < 0x10000) then
      Char.ofNat u :: utf16Lossy (u2 :: rest)
    else if (0xD800 ≤ u ∧ u < 0xDC00) ∧ (0xDC00 ≤ u2 ∧ u2 < 0xE000) then
      Char.ofNat (0x10000 + (u - 0xD800) * 0x400 + (u2 - 0xDC00)) :: utf16Lossy rest
    else Char.ofNat 0xFFFD :: utf16Lossy (u2 :: rest)

/-! ### Byte-level buffer layout

`write_utf16_string` pushes the two little-endian bytes of every code
unit (`wide_char.to_le_bytes()`); the read path reinterprets the byte
buffer as 16-bit units (`array_ext.rs` plus the `divide_up` resize in
`read_u16_bytes`). -/

/-- Little-endian byte serialisation of a list of 16-bit units: each unit
`u` (a `u16`, so `u < 0x10000`) contributes `u % 256` then `u / 256`. -/
def unitsToBytes : List Nat → List Nat
  | [] => []
  | u :: rest => u % 256 :: u / 256 :: unitsToBytes rest

/-- Reassembling 16-bit units from a little-endian byte buffer.  An odd
trailing byte keeps a zero high byte, matching `read_u16_bytes` where the
`u16` buffer is zero-initialised and resized to `divide_up(length, 2)`
units after `length` bytes were written into its byte view. -/
def bytesToU16 : List Nat → List Nat
  | [] => []
  | [b] => [b]
  | b0 :: b1 :: rest => (b0 + 256 * b1) :: bytesToU16 rest

/-- The Rust pattern `[.., 0, 0]` on a byte buffer: the last two bytes
exist and are both zero. -/
def endsWithTwoZeros (l : List Nat) : Bool :=
  match l.reverse with
  | b1 :: b0 :: _ => b1 == 0 && b0 == 0
  | _ => false

/-- The byte buffer built and written by `write_utf16_string`
(`sdboot/src/write.rs`): UTF-16LE code units of `value`, with a two-byte
NUL terminator appended when the buffer does not already end in one. -/
def write_utf16_string (value : List Char) : List Nat :=
  let buffer := unitsToBytes (utf16EncodeUnits value)
  if endsWithTwoZeros buffer then buffer else buffer ++ [0, 0]

/-! ### Decoding of a read buffer (`read_utf16_string` in `read.rs`) -/

/-- The `[text @ .., 0]` trim in `read_utf16_string`: drop the final
code unit when it is zero, otherwise keep the buffer as is. -/
def trimNul (units : List Nat) : List Nat :=
  match units.getLast? with
  | some 0 => units.dropLast
  | _ => units

/-- Value computed by `read_utf16_string` from the `u16` buffer returned
by `read_u16_bytes`: trim one trailing zero unit, then validate as
UTF-16; on failure the error carries the lossy rendering used in its
`Non-UTF16 value: ...` context message. -/
def read_utf16_units (units : List Nat) : Except (List Char) (List Char) :=
  let t := trimNul units
  match utf16Decode t with
  | some s => .ok s
  | none => .error (utf16Lossy t)

/-- Full-buffer validation with the same error payload, with no trimming
at all; used to state the decode contract. -/
def validateFullUnits (units : List Nat) : Except (List Char) (List Char) :=
  match utf16Decode units with
  | some s => .ok s
  | none => .error (utf16Lossy units)

/-! ### The variable store abstraction (`efivar::VarReader::read`)

A store is queried with a byte-buffer size and answers with one of the
outcomes of `efivar::Error` that `read_u16_bytes` distinguishes.  On a
successful read it reports the payload bytes written into the buffer
(their count is the `length` the Rust call returns) and the attribute
bit-set of the variable. -/

/-- Outcome of one `var_manager.read(name, buffer)` call. -/
inductive ReadOutcome where
  /-- Successful read: the payload bytes written and the attribute flags. -/
  | ok (bytes : List Nat) (flags : Nat)
  /-- `efivar::Error::VarNotFound`. -/
  | varNotFound
  /-- `efivar::Error::VarUnknownError` with the wrapped I/O error's
  `raw_os_error()` code. -/
  | varUnknownError (rawOsError : Option Nat)
  /-- `efivar::Error::BufferTooSmall`. -/
  | bufferTooSmall
  /-- Any other `efivar` error (permission denied, unknown I/O, ...),
  identified by an opaque code. -/
  | otherError (e : Nat)
deriving DecidableEq, Repr

/-- Errors produced by `read_u16_bytes` itself. -/
inductive ReadError where
  /-- The `anyhow::bail!` on refusing to grow beyond `MAX_BUFFER`: carries
  the variable name and the attempted size in bytes (`buffer.len() * 2`). -/
  | sizeExceeded (name : String) (attemptedBytes : Nat)
  /-- Any other store error, wrapped with the variable name by the
  `Reading variable {name}` context. -/
  | wrapped (name : String) (underlying : ReadOutcome)
deriving DecidableEq, Repr

/-- `MAX_BUFFER` from `read_u16_bytes`: 8 MiB worth of 16-bit units. -/
def MAX_BUFFER : Nat := 8 * 512 * 1024

/-- Windows error code 0xCB, "environment option not found", recognised
by `is_envvar_not_found`. -/
def ERROR_ENVVAR_NOT_FOUND : Nat := 0xCB

/-- The retry loop of `read_u16_bytes` (`sdboot/src/read.rs`), with the
current buffer size `len` in 16-bit units (the byte view handed to the
store is `2 * len` bytes).  Alongside the result it returns the list of
buffer sizes attempted, for stating resource bounds.  The returned `u16`
buffer on success is the byte payload reassembled into
`divide_up(length, 2)` units. -/
def readLoop (read : Nat → ReadOutcome) (name : String) (len : Nat) (h : 0 < len) :
    (Except ReadError (Option (List Nat × Nat))) × List Nat :=
  match read (2 * len) with
  | .ok bytes flags => (.ok (some (bytesToU16 bytes, flags)), [len])
  | .varNotFound => (.ok none, [len])
  | .varUnknownError code =>
    if code = some ERROR_ENVVAR_NOT_FOUND then (.ok none, [len])
    else (.error (.wrapped name (.varUnknownError code)), [len])
  | .bufferTooSmall =>
    if MAX_BUFFER ≤ len then (.error (.sizeExceeded name (2 * len)), [len])
    else
      let rest := readLoop read name (2 * len) (by omega)
      (rest.1, len :: rest.2)
  | .otherError e => (.error (.wrapped name (.otherError e)), [len])
termination_by MAX_BUFFER - len
decreasing_by simp [MAX_BUFFER] at *; omega

/-- `divide_up` from `sdboot/src/read.rs`. -/
def divide_up (dividend divisor : Nat) : Nat :=
  dividend / divisor + (if dividend % divisor ≠ 0 then 1 else 0)

/-- A variable store: read outcomes per variable name and buffer size. -/
def Store := String → Nat → ReadOutcome

/-- `read_u16_bytes`: enter the retry loop with a 512-unit (1 KiB)
buffer. -/
def read_u16_bytes (store : Store) (name : String) :
    (Except ReadError (Option (List Nat × Nat))) × List Nat :=
  readLoop (store name) name 512 (by omega)

/-! ### The manager (`sdboot/src/manager.rs`) -/

/-- Errors surfaced by the manager operations. -/
inductive ManagerError where
  /-- An error bubbled up from `read_u16_bytes`. -/
  | read (e : ReadError)
  /-- UTF-16 validation failure, carrying the lossy rendering from the
  `Non-UTF16 value` context. -/
  | decode (lossy : List Char)
  /-- The `Variable {name} is not set` context in `entries()`. -/
  | notSet (name : String)
  /-- The `ensure!` failure in `get_oneshot`: stored and expected
  attribute bit-sets. -/
  | attrMismatch (stored expected : Nat)
deriving DecidableEq, Repr

/-- `VariableFlags::NON_VOLATILE`. -/
def NON_VOLATILE : Nat := 0x1

/-- `VariableFlags::BOOTSERVICE_ACCESS`. -/
def BOOTSERVICE_ACCESS : Nat := 0x2

/-- `VariableFlags::RUNTIME_ACCESS`. -/
def RUNTIME_ACCESS : Nat := 0x4

/-- `entry_flags()`: flags on the oneshot/default entry variables. -/
def entry_flags : Nat := NON_VOLATILE ||| BOOTSERVICE_ACCESS ||| RUNTIME_ACCESS

/-- `read_utf16_string` composed over a store: fetch the `u16` buffer and
decode it. -/
def read_utf16_string (store : Store) (name : String) :
    Except ManagerError (Option (List Char × Nat)) :=
  match (read_u16_bytes store name).1 with
  | .error e => .error (.read e)
  | .ok none => .ok none
  | .ok (some (units, flags)) =>
    match read_utf16_units units with
    | .ok s => .ok (some (s, flags))
    | .error lossy => .error (.decode lossy)

/-- `Manager::get_string`: decode and drop the flags. -/
def get_string (store : Store) (name : String) : Except ManagerError (Option (List Char)) :=
  match read_utf16_string store name with
  | .error e => .error e
  | .ok none => .ok none
  | .ok (some (s, _flags)) => .ok (some s)

/-- `Manager::get_selected_entry`. -/
def get_selected_entry (store : Store) : Except ManagerError (Option (List Char)) :=
  get_string store "LoaderEntrySelected"

/-- `Manager::get_default_entry`. -/
def get_default_entry (store : Store) : Except ManagerError (Option (List Char)) :=
  get_string store "LoaderEntryDefault"

/-- `Manager::get_oneshot`: decode `LoaderEntryOneShot`, then `ensure!`
the flags equal `entry_flags()`. -/
def get_oneshot (store : Store) : Except ManagerError (Option (List Char)) :=
  match read_utf16_string store "LoaderEntryOneShot" with
  | .error e => .error e
  | .ok none => .ok none
  | .ok (some (value, flags)) =>
    if flags = entry_flags then .ok (some value)
    else .error (.attrMismatch flags entry_flags)

/-- Rust's `slice::split` on the zero code unit: `n` separators yield
`n + 1` (possibly empty) segments. -/
def splitOnZero : List Nat → List (List Nat)
  | [] => [[]]
  | 0 :: rest => [] :: splitOnZero rest
  | u :: rest =>
    match splitOnZero rest with
    | [] => [[u]]
    | seg :: segs => (u :: seg) :: segs

/-- The entry-list parsing pipeline of `Manager::entries`: split the raw
units on zeros, keep segments up to the first empty one, decode each and
silently drop (warn-and-skip) the ones that fail UTF-16 validation. -/
def entriesParse (units : List Nat) : List (List Char) :=
  ((splitOnZero units).takeWhile (fun entry => !entry.isEmpty)).filterMap
    (fun entry => utf16Decode entry)

/-- `Manager::entries`: read `LoaderEntries` raw, error if absent, then
parse. -/
def entries (store : Store) : Except ManagerError (List (List Char)) :=
  match (read_u16_bytes store "LoaderEntries").1 with
  | .error e => .error (.read e)
  | .ok none => .error (.notSet "LoaderEntries")
  | .ok (some (units, _flags)) => .ok (entriesParse units)

/-! ### Concrete stores used to instantiate the contracts -/

/-- A store holding payload `p` with flags `flags`: a read succeeds
exactly when the offered buffer can hold every payload byte, otherwise
the store signals `BufferTooSmall`. -/
def payloadRead (p : List Nat) (flags : Nat) : Nat → ReadOutcome :=
  fun bufBytes => if p.length ≤ bufBytes then .ok p flags else .bufferTooSmall

/-- A store where exactly one variable exists, with payload `p` and
flags `flags`; every other variable reads as `VarNotFound`. -/
def singleVarStore (vname : String) (p : List Nat) (flags : Nat) : Store :=
  fun name => if name = vname then payloadRead p flags else fun _ => .varNotFound

/-- A store with no variables at all. -/
def emptyStore : Store := fun _ _ => .varNotFound

/-! ### Filesystem model for the immutability guard (`src/attributes.rs`)

Files live behind paths; a path resolves to an inode, and the inode
carries the attribute bits manipulated through `FS_IOC_GETFLAGS` /
`FS_IOC_SETFLAGS`.  An open file handle is modelled by the inode it
refers to, so a handle stays usable (and keeps pointing at the same
inode) even if the path is later unlinked or rebound.  `getFails` and
`setFails` inject ioctl failures per inode. -/

/-- Filesystem state: path resolution, per-inode attribute bits, and
which inodes make the two ioctls fail. -/
structure FsState where
  /-- Path resolution: which inode (if any) a path currently names. -/
  files : String → Option Nat
  /-- Attribute bits per inode (`FS_IOC_GETFLAGS` result). -/
  attrs : Nat → Nat
  /-- Inodes on which `FS_IOC_GETFLAGS` returns -1. -/
  getFails : Nat → Bool
  /-- Inodes on which `FS_IOC_SETFLAGS` returns -1. -/
  setFails : Nat → Bool

/-- `FS_IMMUTABLE_FL` from `linux/fs.h`. -/
def FS_IMMUTABLE_FL : Nat := 0x10

/-- The effect of a successful `ioctl(fd, FS_IOC_SETFLAGS, &attr)`. -/
def setInodeAttrs (fs : FsState) (fd attr : Nat) : FsState :=
  { fs with attrs := fun j => if j = fd then attr else fs.attrs j }

/-- The `Guard` of `src/attributes.rs`: the original attribute value, the
open file handle (`file`, modelled by its inode) and the path (kept for
log messages). -/
structure Guard where
  /-- Captured original attribute bits. -/
  attr : Nat
  /-- The inode of the `File` opened at acquisition. -/
  fd : Nat
  /-- The path, used in the log messages. -/
  path : String

/-- `impl Drop for Guard`: one `ioctl(self.file.as_raw_fd(),
FS_IOC_SETFLAGS, &self.attr)` on the handle captured at acquisition; on
failure only a warning is logged and the state is left as it was.  The
total `FsState → FsState` type reflects that `drop` cannot escalate an
error. -/
def guardDrop (g : Guard) (fs : FsState) : FsState :=
  if fs.setFails g.fd then fs else setInodeAttrs fs g.fd g.attr

/-- Errors of `make_mutable`. -/
inductive AttrError where
  /-- The `Unable to open path` context: `File::open` failed. -/
  | openFailed (path : String)
  /-- The `Unable to obtain inode flags` context. -/
  | getFlagsFailed (path : String)
  /-- The `Unable to switch off immutability` context. -/
  | setFlagsFailed (path : String)
deriving DecidableEq, Repr

/-- `make_mutable` from `src/attributes.rs`: open the file (an absent
file is an error), read its flags, return no guard when the immutable
bit is clear, otherwise clear the bit with `SETFLAGS` and return a guard
capturing the original bits, the handle and the path. -/
def make_mutable (path : String) (fs : FsState) : Except AttrError (Option Guard × FsState) :=
  match fs.files path with
  | none => .error (.openFailed path)
  | some fd =>
    if fs.getFails fd then .error (.getFlagsFailed path)
    else
      let originalAttr := fs.attrs fd
      if originalAttr &&& FS_IMMUTABLE_FL = 0 then .ok (none, fs)
      else
        let newAttr := originalAttr ^^^ FS_IMMUTABLE_FL
        if fs.setFails fd then .error (.setFlagsFailed path)
        else .ok (some ⟨originalAttr, fd, path⟩, setInodeAttrs fs fd newAttr)

/-- The `let _guard = make_mutable(..)?; write(..)` bracket of the
manager's set operations: acquire the guard, run the write (which may
succeed or fail and may change the filesystem), and drop the guard in
both cases.  Returns the write's success flag and the final state, or
the acquisition error. -/
def bracketWrite (path : String) (fs : FsState) (write : FsState → Bool × FsState) :
    Except AttrError (Bool × FsState) :=
  match make_mutable path fs with
  | .error e => .error e
  | .ok (none, fs1) => .ok (write fs1)
  | .ok (some g, fs1) =>
    let r := write fs1
    .ok (r.1, guardDrop g r.2)

/-! ### `remove_oneshot` (`sdboot/src/manager.rs`) -/

/-- The Linux path of the oneshot variable. -/
def ONESHOT_PATH : String :=
  "/sys/firmware/efi/efivars/LoaderEntryOneShot-4a67b082-0a4c-41cf-b6c7-440b29bb8c4f"

/-- Modelled from the spec: `FileAttributes::set_immutable(false)` from
the `attributes` module of the `sdboot` crate (the module itself is not
part of the sources here, only this caller); per the spec's Immutability
Guard section it clears the immutable bit of the open file through the
platform control channel and can fail. -/
def clearImmutable (a : Nat) : Nat :=
  if a &&& FS_IMMUTABLE_FL = 0 then a else a ^^^ FS_IMMUTABLE_FL

/-- Errors of the Linux `remove_oneshot`. -/
inductive RemoveError where
  /-- The `Unable to make oneshot file .. non-immutable` context. -/
  | makeMutableFailed
  /-- The `Unable to open a oneshot entry` context. -/
  | openFailed
  /-- The `Unable to remove a oneshot entry` context. -/
  | removeFailed
deriving DecidableEq, Repr

/-- Unlinking a path. -/
def removeFile (fs : FsState) (p : String) : FsState :=
  { fs with files := fun q => if q = p then none else fs.files q }

/-- `Manager::remove_oneshot` on Linux: open the backing file — treating
`NotFound` as nothing-to-delete — clear its immutability, then
`remove_file`, again treating `NotFound` as success. -/
def remove_oneshot_linux (fs : FsState) : Except RemoveError FsState :=
  match fs.files ONESHOT_PATH with
  | some fd =>
    if fs.setFails fd then .error .makeMutableFailed
    else
      let fs1 := setInodeAttrs fs fd (clearImmutable (fs.attrs fd))
      .ok (removeFile fs1 ONESHOT_PATH)
  | none =>
    -- `File::open` reported `NotFound`: no file, nothing to delete; the
    -- subsequent `remove_file` then also reports `NotFound`, which is
    -- success as well.
    .ok (removeFile fs ONESHOT_PATH)

/-- `Manager::remove_oneshot` on Windows is `self.set_oneshot("")`; this
is the byte buffer that call hands to the store's write. -/
def remove_oneshot_windows_buffer : List Nat :=
  write_utf16_string []

/-! ### Codec lemmas -/

theorem char_valid_toNat (c : Char) :
    c.toNat < 0xD800 ∨ (0xDFFF < c.toNat ∧ c.toNat < 0x110000) := c.valid

theorem encodeChar_lt (c : Char) : ∀ u ∈ encodeChar c, u < 0x10000 := by
  have hv := char_valid_toNat c
  intro u hu
  simp only [encodeChar] at hu
  split at hu
  · simp at hu; omega
  · simp only [List.mem_cons, List.mem_singleton, List.not_mem_nil, or_false] at hu
    rcases hu with h | h <;> omega

theorem encodeChar_ne_zero (c : Char) (hc : c.toNat ≠ 0) : ∀ u ∈ encodeChar c, u ≠ 0 := by
  intro u hu
  simp only [encodeChar] at hu
  split at hu
  · simp at hu; omega
  · simp only [List.mem_cons, List.mem_singleton, List.not_mem_nil, or_false] at hu
    rcases hu with h | h <;> omega

theorem utf16EncodeUnits_mem (s : List Char) (P : Nat → Prop)
    (h : ∀ c ∈ s, ∀ u ∈ encodeChar c, P u) : ∀ u ∈ utf16EncodeUnits s, P u := by
  induction s with
  | nil => intro u hu; simp [utf16EncodeUnits] at hu
  | cons c rest ih =>
    intro u hu
    simp only [utf16EncodeUnits, List.mem_append] at hu
    rcases hu with hu | hu
    · exact h c (by simp) u hu
    · exact ih (fun c hc => h c (by simp [hc])) u hu

theorem utf16Decode_cons_bmp (u : Nat) (l : List Nat)
    (h : u < 0xD800 ∨ (0xDFFF < u ∧ u < 0x10000)) :
    utf16Decode (u :: l) = (utf16Decode l).map (Char.ofNat u :: ·) := by
  cases l with
  | nil => simp [utf16Decode, h]
  | cons v t => simp [utf16Decode, h]

theorem utf16Decode_cons_pair (u u2 : Nat) (l : List Nat)
    (h1 : 0xD800 ≤ u ∧ u < 0xDC00) (h2 : 0xDC00 ≤ u2 ∧ u2 < 0xE000) :
    utf16Decode (u :: u2 :: l) =
      (utf16Decode l).map (Char.ofNat (0x10000 + (u - 0xD800) * 0x400 + (u2 - 0xDC00)) :: ·) := by
  have hnb : ¬(u < 0xD800 ∨ (0xDFFF < u ∧ u < 0x10000)) := by omega
  simp [utf16Decode, hnb, h1, h2]

theorem utf16Decode_encode (s : List Char) :
    utf16Decode (utf16EncodeUnits s) = some s := by
  induction s with
  | nil => simp [utf16EncodeUnits, utf16Decode]
  | cons c rest ih =>
    have hv := char_valid_toNat c
    simp only [utf16EncodeUnits, encodeChar]
    by_cases hb : c.toNat < 0x10000
    · have hcond : c.toNat < 0xD800 ∨ (0xDFFF < c.toNat ∧ c.toNat < 0x10000) := by
        rcases hv with h | h
        · exact Or.inl h
        · exact Or.inr ⟨h.1, hb⟩
      simp only [if_pos hb, List.singleton_append]
      rw [utf16Decode_cons_bmp _ _ hcond, ih]
      simp [Char.ofNat_toNat]
    · have hlt : c.toNat < 0x110000 := by
        rcases hv with h | h
        · exact h.trans (by norm_num)
        · exact h.2
      simp only [if_neg hb, List.cons_append, List.nil_append]
      set v := c.toNat - 0x10000 with hvdef
      have hvlt : v < 0x100000 := by omega
      have hdiv : v / 0x400 < 0x400 := by omega
      have hmod : v % 0x400 < 0x400 := by omega
      rw [utf16Decode_cons_pair _ _ _ (by omega) (by omega), ih]
      have harith : 0x10000 + (0xD800 + v / 0x400 - 0xD800) * 0x400 + (0xDC00 + v % 0x400 - 0xDC00)
          = c.toNat := by omega
      rw [harith, Char.ofNat_toNat]
      rfl

theorem bytesToU16_unitsToBytes (us : List Nat) :
    bytesToU16 (unitsToBytes us) = us := by
  induction us with
  | nil => simp [unitsToBytes, bytesToU16]
  | cons u rest ih =>
    simp only [unitsToBytes, bytesToU16, ih]
    congr 1
    omega

theorem unitsToBytes_append (a b : List Nat) :
    unitsToBytes (a ++ b) = unitsToBytes a ++ unitsToBytes b := by
  induction a with
  | nil => simp [unitsToBytes]
  | cons u rest ih => simp [unitsToBytes, ih]

theorem endsWithTwoZeros_concat (l : List Nat) (b0 b1 : Nat) :
    endsWithTwoZeros (l ++ [b0, b1]) = (b1 == 0 && b0 == 0) := by
  simp [endsWithTwoZeros, List.reverse_append]

theorem endsWithTwoZeros_of_ne_zero (us : List Nat) (h : ∀ u ∈ us, u ≠ 0) :
    endsWithTwoZeros (unitsToBytes us) = false := by
  induction us using List.reverseRecOn with
  | nil => simp [unitsToBytes, endsWithTwoZeros]
  | append_singleton as u _ =>
    have hu : u ≠ 0 := h u (by simp)
    rw [unitsToBytes_append]
    have hrw : unitsToBytes [u] = [u % 256, u / 256] := rfl
    rw [hrw, endsWithTwoZeros_concat]
    simp only [Bool.and_eq_false_iff, beq_eq_false_iff_ne, ne_eq]
    omega

theorem utf16EncodeUnits_ne_zero (s : List Char) (h : ∀ c ∈ s, c.toNat ≠ 0) :
    ∀ u ∈ utf16EncodeUnits s, u ≠ 0 :=
  utf16EncodeUnits_mem s _ (fun c hc => encodeChar_ne_zero c (h c hc))

theorem write_utf16_string_eq (s : List Char) (h : ∀ c ∈ s, c.toNat ≠ 0) :
    write_utf16_string s = unitsToBytes (utf16EncodeUnits s ++ [0]) := by
  have hne := utf16EncodeUnits_ne_zero s h
  simp only [write_utf16_string]
  rw [endsWithTwoZeros_of_ne_zero _ hne]
  rw [unitsToBytes_append]
  rfl

theorem trimNul_concat_zero (us : List Nat) : trimNul (us ++ [0]) = us := by
  unfold trimNul
  rw [List.getLast?_concat]
  exact List.dropLast_concat

theorem trimNul_of_getLast_ne (us : List Nat) (h : us.getLast? ≠ some 0) :
    trimNul us = us := by
  unfold trimNul
  cases hl : us.getLast? with
  | none => rfl
  | some n =>
    cases n with
    | zero => exact absurd hl h
    | succ m => rfl

/-- Shared round-trip fact: decoding the encoded-and-reassembled buffer
of a NUL-free string gives the string back. -/
theorem read_write_roundtrip (s : List Char) (h : ∀ c ∈ s, c.toNat ≠ 0) :
    read_utf16_units (bytesToU16 (write_utf16_string s)) = .ok s := by
  rw [write_utf16_string_eq s h, bytesToU16_unitsToBytes]
  simp only [read_utf16_units]
  rw [trimNul_concat_zero, utf16Decode_encode]

/-! ### Reader lemmas -/

theorem divide_up_two (n : Nat) : divide_up n 2 = (n + 1) / 2 := by
  unfold divide_up; split <;> omega

theorem bytesToU16_length (bs : List Nat) :
    (bytesToU16 bs).length = divide_up bs.length 2 := by
  rw [divide_up_two]
  induction bs using bytesToU16.induct with
  | case1 => simp [bytesToU16]
  | case2 b => simp [bytesToU16]
  | case3 b0 b1 rest ih =>
    simp only [bytesToU16, List.length_cons] at *
    omega

theorem MAX_BUFFER_eq : MAX_BUFFER = 2 ^ 22 := by norm_num [MAX_BUFFER]

theorem readLoop_payload_step_ok (p : List Nat) (f : Nat) (name : String)
    (len : Nat) (h : 0 < len) (hle : p.length ≤ 2 * len) :
    readLoop (payloadRead p f) name len h = (.ok (some (bytesToU16 p, f)), [len]) := by
  rw [readLoop]
  simp [payloadRead, hle]

theorem readLoop_payload_step_grow (p : List Nat) (f : Nat) (name : String)
    (len : Nat) (h : 0 < len) (hgt : 2 * len < p.length) (hlt : len < MAX_BUFFER) :
    readLoop (payloadRead p f) name len h =
      ((readLoop (payloadRead p f) name (2 * len) (by omega)).1,
        len :: (readLoop (payloadRead p f) name (2 * len) (by omega)).2) := by
  rw [readLoop]
  have hnle : ¬p.length ≤ 2 * len := by omega
  have hnmax : ¬MAX_BUFFER ≤ len := by omega
  simp [payloadRead, hnle, hnmax]

theorem readLoop_payload_step_bail (p : List Nat) (f : Nat) (name : String)
    (len : Nat) (h : 0 < len) (hgt : 2 * len < p.length) (hmax : MAX_BUFFER ≤ len) :
    readLoop (payloadRead p f) name len h =
      (.error (.sizeExceeded name (2 * len)), [len]) := by
  rw [readLoop]
  have hnle : ¬p.length ≤ 2 * len := by omega
  simp [payloadRead, hnle, hmax]

theorem readLoop_payload_ok (p : List Nat) (f : Nat) (name : String)
    (hmax : p.length ≤ 2 * MAX_BUFFER) :
    ∀ (k e len : Nat) (h : 0 < len), len = 2 ^ e → e ≤ 22 →
    p.length ≤ 2 * len * 2 ^ k →
    (readLoop (payloadRead p f) name len h).1 = .ok (some (bytesToU16 p, f)) ∧
    (readLoop (payloadRead p f) name len h).2.length ≤ k + 1 ∧
    ∀ l ∈ (readLoop (payloadRead p f) name len h).2, l ≤ MAX_BUFFER := by
  intro k
  induction k with
  | zero =>
    intro e len h he hele hfit
    have hle : p.length ≤ 2 * len := by simpa using hfit
    rw [readLoop_payload_step_ok p f name len h hle]
    refine ⟨rfl, by simp, ?_⟩
    intro l hl
    simp only [List.mem_singleton] at hl
    subst hl
    rw [MAX_BUFFER_eq, he]
    exact Nat.pow_le_pow_right (by norm_num) hele
  | succ k ih =>
    intro e len h he hele hfit
    by_cases hle : p.length ≤ 2 * len
    · rw [readLoop_payload_step_ok p f name len h hle]
      refine ⟨rfl, by simp, ?_⟩
      intro l hl
      simp only [List.mem_singleton] at hl
      subst hl
      rw [MAX_BUFFER_eq, he]
      exact Nat.pow_le_pow_right (by norm_num) hele
    · have he21 : e ≤ 21 := by
        by_contra hgt
        have he22 : e = 22 := by omega
        rw [he22] at he
        rw [MAX_BUFFER_eq] at hmax
        omega
      have hlt : len < MAX_BUFFER := by
        rw [MAX_BUFFER_eq, he]
        calc 2 ^ e ≤ 2 ^ 21 := Nat.pow_le_pow_right (by norm_num) he21
        _ < 2 ^ 22 := by norm_num
      rw [readLoop_payload_step_grow p f name len h (by omega) hlt]
      have hrec := ih (e + 1) (2 * len) (by omega) (by rw [he]; ring) (by omega)
        (by calc p.length ≤ 2 * len * 2 ^ (k + 1) := hfit
              _ = 2 * (2 * len) * 2 ^ k := by ring)
      dsimp only
      refine ⟨hrec.1, ?_, ?_⟩
      · simp only [List.length_cons]
        have := hrec.2.1
        omega
      · intro l hl
        simp only [List.mem_cons] at hl
        rcases hl with hl | hl
        · subst hl; omega
        · exact hrec.2.2 l hl

theorem readLoop_payload_fail (p : List Nat) (f : Nat) (name : String)
    (hbig : 2 * MAX_BUFFER < p.length) :
    ∀ (d e len : Nat) (h : 0 < len), len = 2 ^ e → e + d = 22 →
    (readLoop (payloadRead p f) name len h).1 =
      .error (.sizeExceeded name (2 * MAX_BUFFER)) ∧
    ∀ l ∈ (readLoop (payloadRead p f) name len h).2, l ≤ MAX_BUFFER := by
  intro d
  induction d with
  | zero =>
    intro e len h he hed
    have he22 : e = 22 := by omega
    have hlen : len = MAX_BUFFER := by rw [he, he22, MAX_BUFFER_eq]
    have hgt : 2 * len < p.length := by omega
    rw [readLoop_payload_step_bail p f name len h hgt (by omega)]
    subst hlen
    exact ⟨rfl, by intro l hl; simp only [List.mem_singleton] at hl; omega⟩
  | succ d ih =>
    intro e len h he hed
    have hle : len ≤ 2 ^ 21 := by
      rw [he]; exact Nat.pow_le_pow_right (by norm_num) (by omega)
    have hlt : len < MAX_BUFFER := by rw [MAX_BUFFER_eq]; omega
    have hgt : 2 * len < p.length := by
      have : 2 * len < 2 * MAX_BUFFER := by omega
      omega
    rw [readLoop_payload_step_grow p f name len h hgt hlt]
    have hrec := ih (e + 1) (2 * len) (by omega) (by rw [he]; ring) (by omega)
    refine ⟨hrec.1, ?_⟩
    intro l hl
    simp only [List.mem_cons] at hl
    rcases hl with hl | hl
    · subst hl; omega
    · exact hrec.2 l hl

theorem singleVarStore_self (vname : String) (p : List Nat) (f : Nat) :
    singleVarStore vname p f vname = payloadRead p f := by
  simp [singleVarStore]

theorem le_1024_mul_divide_up (n : Nat) : n ≤ 1024 * divide_up n 1024 := by
  unfold divide_up; split <;> omega

/-! ### Claim C1 -/

/-- **C1**: for every text `s` containing no embedded NUL character,
`write_utf16_string`'s encoding (UTF-16LE code units plus an appended
two-zero-byte terminator when not already present) composed with
`read_utf16_string`'s decoding (reassemble 16-bit units, trim one
trailing zero unit, validate as UTF-16) is the identity on `s`. -/
theorem roundtrip_decode_encode (s : List Char) (h : ∀ c ∈ s, c.toNat ≠ 0) :
    read_utf16_units (bytesToU16 (write_utf16_string s)) = .ok s :=
  read_write_roundtrip s h

theorem roundtrip_decode_encode_witness :
    read_utf16_units (bytesToU16 (write_utf16_string ['b', 'o', 'o', 't'])) =
      .ok ['b', 'o', 'o', 't'] :=
  roundtrip_decode_encode ['b', 'o', 'o', 't'] (by decide)

/-! ### Claim C2 -/

/-- **C2**: reading a variable starts from a 512-unit buffer, doubles it
on every `BufferTooSmall` signal and terminates: a stored payload of `N`
bytes with `N ≤ 8 MiB` is read successfully within
`clog2(divide_up N 1024) + 1` attempts into a buffer of exactly
`divide_up N 2` sixteen-bit units together with the attribute bit-set,
while `N > 8 MiB` fails with a size-exceeded error naming the variable
and the attempted byte size, the buffer never growing beyond the
`MAX_BUFFER` ceiling in either case. -/
theorem read_u16_bytes_spec (p : List Nat) (f : Nat) (name : String) :
    (p.length ≤ 8388608 →
      (read_u16_bytes (singleVarStore name p f) name).1 = .ok (some (bytesToU16 p, f)) ∧
      (bytesToU16 p).length = divide_up p.length 2 ∧
      (read_u16_bytes (singleVarStore name p f) name).2.length ≤
        Nat.clog 2 (divide_up p.length 1024) + 1 ∧
      ∀ l ∈ (read_u16_bytes (singleVarStore name p f) name).2, l ≤ MAX_BUFFER) ∧
    (8388608 < p.length →
      (read_u16_bytes (singleVarStore name p f) name).1 =
        .error (.sizeExceeded name 8388608) ∧
      ∀ l ∈ (read_u16_bytes (singleVarStore name p f) name).2, l ≤ MAX_BUFFER) := by
  constructor
  · intro hlen
    have hmax : p.length ≤ 2 * MAX_BUFFER := by
      have : MAX_BUFFER = 4194304 := by norm_num [MAX_BUFFER]
      omega
    have h1 : divide_up p.length 1024 ≤ 2 ^ Nat.clog 2 (divide_up p.length 1024) :=
      Nat.le_pow_clog (by norm_num) _
    have h2 : p.length ≤ 1024 * divide_up p.length 1024 := le_1024_mul_divide_up _
    have hfit : p.length ≤ 2 * 512 * 2 ^ Nat.clog 2 (divide_up p.length 1024) := by
      calc p.length ≤ 1024 * divide_up p.length 1024 := h2
        _ ≤ 1024 * 2 ^ Nat.clog 2 (divide_up p.length 1024) := Nat.mul_le_mul_left _ h1
        _ = 2 * 512 * 2 ^ Nat.clog 2 (divide_up p.length 1024) := by ring
    unfold read_u16_bytes
    rw [singleVarStore_self]
    have hmain := readLoop_payload_ok p f name hmax (Nat.clog 2 (divide_up p.length 1024))
      9 512 (by omega) (by norm_num) (by norm_num) hfit
    exact ⟨hmain.1, bytesToU16_length p, hmain.2.1, hmain.2.2⟩
  · intro hlen
    have hbig : 2 * MAX_BUFFER < p.length := by
      have : MAX_BUFFER = 4194304 := by norm_num [MAX_BUFFER]
      omega
    unfold read_u16_bytes
    rw [singleVarStore_self]
    have hmain := readLoop_payload_fail p f name hbig 13 9 512 (by omega)
      (by norm_num) (by norm_num)
    have h2max : 2 * MAX_BUFFER = 8388608 := by norm_num [MAX_BUFFER]
    rw [h2max] at hmain
    exact hmain

theorem read_u16_bytes_spec_witness :
    (read_u16_bytes (singleVarStore "LoaderEntries" [1, 2, 3] 7) "LoaderEntries").1 =
      .ok (some (bytesToU16 [1, 2, 3], 7)) ∧
    (bytesToU16 [1, 2, 3]).length = divide_up ([1, 2, 3] : List Nat).length 2 ∧
    (read_u16_bytes (singleVarStore "LoaderEntries" [1, 2, 3] 7) "LoaderEntries").2.length ≤
      Nat.clog 2 (divide_up ([1, 2, 3] : List Nat).length 1024) + 1 ∧
    ∀ l ∈ (read_u16_bytes (singleVarStore "LoaderEntries" [1, 2, 3] 7) "LoaderEntries").2,
      l ≤ MAX_BUFFER :=
  (read_u16_bytes_spec [1, 2, 3] 7 "LoaderEntries").1 (by norm_num)

/-! ### Claim C6 -/

/-- **C6**: decoding a raw UTF-16LE payload trims exactly one trailing
zero code unit when the buffer ends with one, decodes the buffer in full
when it does not, and fails with a decode error carrying the lossy
rendering of the offending units when the remaining units are not valid
UTF-16. -/
theorem read_utf16_units_spec (units : List Nat) :
    read_utf16_units (units ++ [0]) = validateFullUnits units ∧
    (units.getLast? ≠ some 0 → read_utf16_units units = validateFullUnits units) ∧
    (utf16Decode (trimNul units) = none →
      read_utf16_units units = .error (utf16Lossy (trimNul units))) := by
  refine ⟨?_, ?_, ?_⟩
  · simp only [read_utf16_units, validateFullUnits]
    rw [trimNul_concat_zero]
  · intro h
    simp only [read_utf16_units, validateFullUnits]
    rw [trimNul_of_getLast_ne units h]
  · intro h
    simp only [read_utf16_units]
    rw [h]

theorem read_utf16_units_spec_witness :
    read_utf16_units [0xD800, 0] = validateFullUnits [0xD800] ∧
    read_utf16_units [0xD800] = validateFullUnits [0xD800] ∧
    read_utf16_units [0xD800] = .error (utf16Lossy [0xD800]) := by
  obtain ⟨h1, h2, h3⟩ := read_utf16_units_spec [0xD800]
  exact ⟨h1, h2 (by decide), h3 (by decide)⟩

/-! ### One-step reader lemmas for abstract stores -/

theorem readLoop_notFound (r : Nat → ReadOutcome) (name : String) (len : Nat) (h : 0 < len)
    (hr : r (2 * len) = .varNotFound) :
    readLoop r name len h = (.ok none, [len]) := by
  rw [readLoop]
  simp [hr]

theorem readLoop_envvar (r : Nat → ReadOutcome) (name : String) (len : Nat) (h : 0 < len)
    (hr : r (2 * len) = .varUnknownError (some ERROR_ENVVAR_NOT_FOUND)) :
    readLoop r name len h = (.ok none, [len]) := by
  rw [readLoop]
  simp [hr]

theorem readLoop_otherError (r : Nat → ReadOutcome) (name : String) (len : Nat) (h : 0 < len)
    (e : Nat) (hr : r (2 * len) = .otherError e) :
    readLoop r name len h = (.error (.wrapped name (.otherError e)), [len]) := by
  rw [readLoop]
  simp [hr]

theorem read_u16_bytes_notFound (store : Store) (name : String)
    (hr : ∀ sz, store name sz = .varNotFound) :
    (read_u16_bytes store name).1 = .ok none := by
  unfold read_u16_bytes
  rw [readLoop_notFound _ _ _ _ (hr 1024)]

theorem get_string_notFound (store : Store) (name : String)
    (hr : ∀ sz, store name sz = .varNotFound) :
    get_string store name = .ok none := by
  simp only [get_string, read_utf16_string]
  rw [read_u16_bytes_notFound store name hr]

/-! ### Claim C3 -/

/-- **C3**: a not-found signal from the store (including, via the Windows
branch, the OS error code 0xCB wrapped in `VarUnknownError`) makes the
read return an explicit absent outcome rather than an error;
`get_default_entry` and `get_selected_entry` return absent when their
variable does not exist, and any other store error is wrapped with the
variable's name. -/
theorem read_not_found_spec (store : Store) (name : String) (e : Nat) :
    (store name 1024 = .varNotFound → (read_u16_bytes store name).1 = .ok none) ∧
    (store name 1024 = .varUnknownError (some ERROR_ENVVAR_NOT_FOUND) →
      (read_u16_bytes store name).1 = .ok none) ∧
    (store name 1024 = .otherError e →
      (read_u16_bytes store name).1 = .error (.wrapped name (.otherError e))) ∧
    ((∀ sz, store "LoaderEntryDefault" sz = .varNotFound) →
      get_default_entry store = .ok none) ∧
    ((∀ sz, store "LoaderEntrySelected" sz = .varNotFound) →
      get_selected_entry store = .ok none) := by
  refine ⟨?_, ?_, ?_, ?_, ?_⟩
  · intro hr
    unfold read_u16_bytes
    rw [readLoop_notFound _ _ _ _ hr]
  · intro hr
    unfold read_u16_bytes
    rw [readLoop_envvar _ _ _ _ hr]
  · intro hr
    unfold read_u16_bytes
    rw [readLoop_otherError _ _ _ _ _ hr]
  · intro hr
    exact get_string_notFound store _ hr
  · intro hr
    exact get_string_notFound store _ hr

theorem read_not_found_spec_witness :
    (read_u16_bytes emptyStore "LoaderEntryOneShot").1 = .ok none ∧
    (read_u16_bytes (fun _ _ => .varUnknownError (some ERROR_ENVVAR_NOT_FOUND)) "Boot0001").1 =
      .ok none ∧
    (read_u16_bytes (fun _ _ => .otherError 5) "Boot0001").1 =
      .error (.wrapped "Boot0001" (.otherError 5)) ∧
    get_default_entry emptyStore = .ok none ∧
    get_selected_entry emptyStore = .ok none :=
  ⟨(read_not_found_spec emptyStore "LoaderEntryOneShot" 5).1 rfl,
    (read_not_found_spec (fun _ _ => .varUnknownError (some ERROR_ENVVAR_NOT_FOUND))
      "Boot0001" 5).2.1 rfl,
    (read_not_found_spec (fun _ _ => .otherError 5) "Boot0001" 5).2.2.1 rfl,
    (read_not_found_spec emptyStore "Boot0001" 5).2.2.2.1 (fun _ => rfl),
    (read_not_found_spec emptyStore "Boot0001" 5).2.2.2.2 (fun _ => rfl)⟩

/-! ### Claim C4 -/

theorem read_u16_bytes_payload_ok (p : List Nat) (f : Nat) (name : String)
    (hlen : p.length ≤ 8388608) :
    (read_u16_bytes (singleVarStore name p f) name).1 = .ok (some (bytesToU16 p, f)) := by
  have hmax : p.length ≤ 2 * MAX_BUFFER := by
    have : MAX_BUFFER = 4194304 := by norm_num [MAX_BUFFER]
    omega
  have h1 : divide_up p.length 1024 ≤ 2 ^ Nat.clog 2 (divide_up p.length 1024) :=
    Nat.le_pow_clog (by norm_num) _
  have hfit : p.length ≤ 2 * 512 * 2 ^ Nat.clog 2 (divide_up p.length 1024) := by
    calc p.length ≤ 1024 * divide_up p.length 1024 := le_1024_mul_divide_up _
      _ ≤ 1024 * 2 ^ Nat.clog 2 (divide_up p.length 1024) := Nat.mul_le_mul_left _ h1
      _ = 2 * 512 * 2 ^ Nat.clog 2 (divide_up p.length 1024) := by ring
  unfold read_u16_bytes
  rw [singleVarStore_self]
  exact (readLoop_payload_ok p f name hmax (Nat.clog 2 (divide_up p.length 1024))
    9 512 (by omega) (by norm_num) (by norm_num) hfit).1

theorem read_utf16_string_payload (s : List Char) (f : Nat) (name : String)
    (hnul : ∀ c ∈ s, c.toNat ≠ 0)
    (hlen : (write_utf16_string s).length ≤ 8388608) :
    read_utf16_string (singleVarStore name (write_utf16_string s) f) name =
      .ok (some (s, f)) := by
  simp only [read_utf16_string]
  rw [read_u16_bytes_payload_ok _ _ _ hlen]
  dsimp only
  rw [read_write_roundtrip s hnul]

/-- **C4**: `get_oneshot` returns the decoded value only when the
attribute bit-set read back equals exactly `entry_flags` (non-volatile,
boot-service-access, runtime-access); differing attributes fail with a
mismatch error carrying both the stored and the expected bit-sets, and an
unset variable yields absent, not an error. -/
theorem get_oneshot_spec (s : List Char) (flags : Nat)
    (hnul : ∀ c ∈ s, c.toNat ≠ 0)
    (hlen : (write_utf16_string s).length ≤ 8388608) :
    (flags = entry_flags →
      get_oneshot (singleVarStore "LoaderEntryOneShot" (write_utf16_string s) flags) =
        .ok (some s)) ∧
    (flags ≠ entry_flags →
      get_oneshot (singleVarStore "LoaderEntryOneShot" (write_utf16_string s) flags) =
        .error (.attrMismatch flags entry_flags)) ∧
    get_oneshot emptyStore = .ok none := by
  have hdec := read_utf16_string_payload s flags "LoaderEntryOneShot" hnul hlen
  refine ⟨?_, ?_, ?_⟩
  · intro hf
    simp only [get_oneshot]
    rw [hdec]
    simp [hf]
  · intro hf
    simp only [get_oneshot]
    rw [hdec]
    simp [hf]
  · simp only [get_oneshot, read_utf16_string]
    rw [read_u16_bytes_notFound emptyStore _ (fun _ => rfl)]

theorem get_oneshot_spec_witness :
    get_oneshot (singleVarStore "LoaderEntryOneShot" (write_utf16_string ['o', 's']) 7) =
      .ok (some ['o', 's']) ∧
    get_oneshot (singleVarStore "LoaderEntryOneShot" (write_utf16_string ['o', 's']) 6) =
      .error (.attrMismatch 6 entry_flags) ∧
    get_oneshot emptyStore = .ok none :=
  ⟨(get_oneshot_spec ['o', 's'] 7 (by decide) (by decide)).1 (by decide),
    (get_oneshot_spec ['o', 's'] 6 (by decide) (by decide)).2.1 (by decide),
    (get_oneshot_spec ['o', 's'] 6 (by decide) (by decide)).2.2⟩

/-! ### Claim C5 -/

/-- A sequence of individually NUL-terminated entries, one after the
other, as stored in `LoaderEntries`. -/
def joinTerm : List (List Nat) → List Nat
  | [] => []
  | s :: rest => s ++ 0 :: joinTerm rest

theorem splitOnZero_append_of_ne_zero (s t : List Nat) (h : ∀ u ∈ s, u ≠ 0) :
    splitOnZero (s ++ 0 :: t) = s :: splitOnZero t := by
  induction s with
  | nil => simp [splitOnZero]
  | cons x s ih =>
    have hx : x ≠ 0 := h x (by simp)
    have hs : ∀ u ∈ s, u ≠ 0 := fun u hu => h u (by simp [hu])
    cases x with
    | zero => exact absurd rfl hx
    | succ n =>
      simp only [List.cons_append, splitOnZero, List.append_eq]
      rw [ih hs]

theorem entriesParse_joinTerm (ss : List (List Nat)) (junk : List Nat)
    (h : ∀ s ∈ ss, s ≠ [] ∧ ∀ u ∈ s, u ≠ 0) :
    entriesParse (joinTerm ss ++ 0 :: junk) = ss.filterMap utf16Decode := by
  induction ss with
  | nil =>
    simp [joinTerm, entriesParse, splitOnZero]
  | cons s ss ih =>
    obtain ⟨hne, hz⟩ := h s (by simp)
    have harr : joinTerm (s :: ss) ++ 0 :: junk = s ++ 0 :: (joinTerm ss ++ 0 :: junk) := by
      simp [joinTerm]
    rw [harr]
    unfold entriesParse at ih ⊢
    rw [splitOnZero_append_of_ne_zero s _ hz]
    rw [List.takeWhile_cons_of_pos (by simpa using hne)]
    rw [List.filterMap_cons, List.filterMap_cons]
    rw [ih (fun t ht => h t (by simp [ht]))]

/-- **C5**: `entries()` splits the raw sixteen-bit payload of
`LoaderEntries` on zero code units, stops at the first empty segment so
that nothing after it is returned, yields the remaining segments decoded
in stored order, and skips any segment failing UTF-16 validation instead
of failing the whole listing: for a stored sequence of non-empty,
zero-free segments each NUL-terminated and followed by an empty
terminator (and arbitrary trailing junk), the result is exactly the
per-segment decodings, invalid segments dropped. -/
theorem entries_parse_spec (ss : List (List Nat)) (junk : List Nat) (f : Nat)
    (h : ∀ s ∈ ss, s ≠ [] ∧ ∀ u ∈ s, u ≠ 0)
    (hlen : (unitsToBytes (joinTerm ss ++ 0 :: junk)).length ≤ 8388608) :
    entries (singleVarStore "LoaderEntries"
        (unitsToBytes (joinTerm ss ++ 0 :: junk)) f) =
      .ok (ss.filterMap utf16Decode) := by
  simp only [entries]
  rw [read_u16_bytes_payload_ok _ _ _ hlen]
  dsimp only
  rw [bytesToU16_unitsToBytes, entriesParse_joinTerm ss junk h]

theorem entries_parse_spec_witness :
    entries (singleVarStore "LoaderEntries"
        (unitsToBytes (joinTerm [[97, 108, 112, 104, 97], [98, 101, 116, 97],
          [103, 97, 109, 109, 97]] ++ 0 :: [])) 7) =
      .ok [['a', 'l', 'p', 'h', 'a'], ['b', 'e', 't', 'a'], ['g', 'a', 'm', 'm', 'a']] ∧
    entries (singleVarStore "LoaderEntries"
        (unitsToBytes (joinTerm [[97, 108, 112, 104, 97], [0xD800],
          [103, 97, 109, 109, 97]] ++ 0 :: [])) 7) =
      .ok [['a', 'l', 'p', 'h', 'a'], ['g', 'a', 'm', 'm', 'a']] := by
  constructor
  · rw [entries_parse_spec _ _ _ (by decide) (by decide)]
    simp only [Except.ok.injEq]
    decide
  · rw [entries_parse_spec _ _ _ (by decide) (by decide)]
    simp only [Except.ok.injEq]
    decide

/-! ### Claim C10 -/

/-- **C10**: when `LoaderEntries` does not exist in the store,
`entries()` returns an error stating the variable is not set — not an
empty list and not an explicit absence — unlike the single-entry getters,
which map absence of their variable to an absent outcome. -/
theorem entries_absent_spec (store : Store)
    (h : ∀ name sz, store name sz = .varNotFound) :
    entries store = .error (.notSet "LoaderEntries") ∧
    (∀ l, entries store ≠ .ok l) ∧
    get_default_entry store = .ok none ∧
    get_selected_entry store = .ok none ∧
    get_oneshot store = .ok none := by
  have habs : entries store = .error (.notSet "LoaderEntries") := by
    simp only [entries]
    rw [read_u16_bytes_notFound store _ (fun sz => h _ sz)]
  refine ⟨habs, ?_, ?_, ?_, ?_⟩
  · intro l hl
    rw [habs] at hl
    exact Except.noConfusion hl
  · exact get_string_notFound store _ (fun sz => h _ sz)
  · exact get_string_notFound store _ (fun sz => h _ sz)
  · simp only [get_oneshot, read_utf16_string]
    rw [read_u16_bytes_notFound store _ (fun sz => h _ sz)]

theorem entries_absent_spec_witness :
    entries emptyStore = .error (.notSet "LoaderEntries") ∧
    (∀ l, entries emptyStore ≠ .ok l) ∧
    get_default_entry emptyStore = .ok none ∧
    get_selected_entry emptyStore = .ok none ∧
    get_oneshot emptyStore = .ok none :=
  entries_absent_spec emptyStore (fun _ _ => rfl)

/-! ### Claim C7 -/

/-- A guard whose captured handle is inode 0, for the release
counterexample. -/
def staleGuard : Guard := ⟨0x10, 0, "/efivars/oneshot"⟩

/-- A filesystem where the guarded path has been rebound to inode 1
between acquisition and release: the captured handle (inode 0) no longer
matches the file at the path. -/
def reboundFs : FsState :=
  { files := fun q => if q = "/efivars/oneshot" then some 1 else none
    attrs := fun _ => 0
    getFails := fun _ => false
    setFails := fun _ => false }

/-- **C7 counterexample**: on release the guard does *not* reopen the
file by its path — with the path rebound to inode 1, the drop restores
the captured attribute on the stale handle's inode 0 and leaves the
inode currently at the path untouched. -/
theorem guard_drop_not_by_path :
    reboundFs.files staleGuard.path = some 1 ∧
    staleGuard.attr = 0x10 ∧
    (guardDrop staleGuard reboundFs).attrs 1 ≠ staleGuard.attr ∧
    (guardDrop staleGuard reboundFs).attrs 0 = staleGuard.attr := by
  refine ⟨rfl, rfl, ?_, rfl⟩
  intro h
  simp [guardDrop, reboundFs, staleGuard, setInodeAttrs] at h

/-- **C7 (amended)**: on release (at scope exit, including after a failed
write) the guard re-applies the captured original attribute value through
the file handle captured at acquisition — the path is kept only for log
messages; a failure to restore is absorbed with a warning, leaving the
state unchanged, and never escalates; and within the bracketed write the
restore applies no matter what the write did to the filesystem or whether
it succeeded. -/
theorem guard_drop_spec (g : Guard) (fs : FsState) (w : FsState → Bool × FsState) :
    (fs.setFails g.fd = false → (guardDrop g fs).attrs g.fd = g.attr ∧
      ∀ i, i ≠ g.fd → (guardDrop g fs).attrs i = fs.attrs i) ∧
    (fs.setFails g.fd = true → guardDrop g fs = fs) ∧
    (guardDrop g fs).files = fs.files ∧
    ((w fs).2.setFails g.fd = false → (guardDrop g (w fs).2).attrs g.fd = g.attr) := by
  refine ⟨?_, ?_, ?_, ?_⟩
  · intro hok
    simp only [guardDrop, hok, Bool.false_eq_true, if_false, setInodeAttrs]
    exact ⟨by simp, fun i hi => by simp [hi]⟩
  · intro hfail
    simp [guardDrop, hfail]
  · by_cases hf : fs.setFails g.fd <;> simp [guardDrop, hf, setInodeAttrs]
  · intro hok
    simp [guardDrop, hok, setInodeAttrs]

theorem guard_drop_spec_witness :
    ((guardDrop staleGuard reboundFs).attrs staleGuard.fd = staleGuard.attr ∧
      ∀ i, i ≠ staleGuard.fd →
        (guardDrop staleGuard reboundFs).attrs i = reboundFs.attrs i) ∧
    (guardDrop staleGuard reboundFs).files = reboundFs.files ∧
    (guardDrop staleGuard reboundFs).attrs staleGuard.fd = staleGuard.attr := by
  have h := guard_drop_spec staleGuard reboundFs (fun s => (true, s))
  exact ⟨h.1 rfl, h.2.2.1, h.2.2.2 rfl⟩

theorem guardDrop_attrs_eq (a fd : Nat) (p : String) (s : FsState)
    (h : s.setFails fd = false) :
    (guardDrop ⟨a, fd, p⟩ s).attrs fd = a := by
  simp [guardDrop, h, setInodeAttrs]

/-! ### Claim C8 -/

/-- A filesystem with no files at all, for the acquisition-on-absent-path
counterexample. -/
def noFileFs : FsState :=
  { files := fun _ => none
    attrs := fun _ => 0
    getFails := fun _ => false
    setFails := fun _ => false }

/-- **C8 counterexample**: acquiring the guard on a path whose file does
not exist does *not* succeed with a guard — `File::open` fails and
`make_mutable` propagates the error. -/
theorem make_mutable_missing_file_errors :
    make_mutable ONESHOT_PATH noFileFs = .error (.openFailed ONESHOT_PATH) ∧
    ∀ r, make_mutable ONESHOT_PATH noFileFs ≠ .ok r := by
  refine ⟨rfl, ?_⟩
  intro r hr
  rw [show make_mutable ONESHOT_PATH noFileFs = .error (.openFailed ONESHOT_PATH) from rfl] at hr
  exact Except.noConfusion hr

/-- **C8 (amended)**: acquiring the immutability guard on a path whose
file does not exist fails with an open error (the write is not
bracketed); acquiring on an existing file whose immutable bit is clear
returns no guard and leaves the attribute state unchanged; acquiring on
an existing file with the bit set returns a guard capturing the original
bits, and after the bracketed write and the release the inode's
attribute bits are back to the original — immutable bit included —
regardless of whether the write succeeded or failed. -/
theorem make_mutable_spec (path : String) (fs : FsState) (fd : Nat)
    (w : FsState → Bool × FsState) :
    (fs.files path = none → make_mutable path fs = .error (.openFailed path)) ∧
    (fs.files path = some fd → fs.getFails fd = false →
      fs.attrs fd &&& FS_IMMUTABLE_FL = 0 → make_mutable path fs = .ok (none, fs)) ∧
    (fs.files path = some fd → fs.getFails fd = false → fs.setFails fd = false →
      fs.attrs fd &&& FS_IMMUTABLE_FL ≠ 0 →
      (w (setInodeAttrs fs fd (fs.attrs fd ^^^ FS_IMMUTABLE_FL))).2.setFails fd = false →
      ∃ r, bracketWrite path fs w = .ok r ∧
        r.2.attrs fd = fs.attrs fd ∧ r.2.attrs fd &&& FS_IMMUTABLE_FL ≠ 0) := by
  refine ⟨?_, ?_, ?_⟩
  · intro hnone
    simp only [make_mutable, hnone]
  · intro hsome hget hclear
    simp only [make_mutable, hsome, hget, Bool.false_eq_true, if_false, if_pos hclear]
  · intro hsome hget hset himm hwset
    have hmk : make_mutable path fs =
        .ok (some ⟨fs.attrs fd, fd, path⟩,
          setInodeAttrs fs fd (fs.attrs fd ^^^ FS_IMMUTABLE_FL)) := by
      simp only [make_mutable, hsome, hget, hset, Bool.false_eq_true, if_false, if_neg himm]
    refine ⟨((w (setInodeAttrs fs fd (fs.attrs fd ^^^ FS_IMMUTABLE_FL))).1,
      guardDrop ⟨fs.attrs fd, fd, path⟩
        (w (setInodeAttrs fs fd (fs.attrs fd ^^^ FS_IMMUTABLE_FL))).2), ?_, ?_, ?_⟩
    · simp only [bracketWrite, hmk]
    · exact guardDrop_attrs_eq (fs.attrs fd) fd path _ hwset
    · rw [show (((w (setInodeAttrs fs fd (fs.attrs fd ^^^ FS_IMMUTABLE_FL))).1,
          guardDrop ⟨fs.attrs fd, fd, path⟩
            (w (setInodeAttrs fs fd (fs.attrs fd ^^^ FS_IMMUTABLE_FL))).2) :
            Bool × FsState).2.attrs fd = fs.attrs fd from
        guardDrop_attrs_eq (fs.attrs fd) fd path _ hwset]
      exact himm

/-- A filesystem with one file at `ONESHOT_PATH` (inode 3) whose
immutable bit is set, and a write that flips some other inode's bits to
exercise the bracket. -/
def immutableFs : FsState :=
  { files := fun q => if q = ONESHOT_PATH then some 3 else none
    attrs := fun j => if j = 3 then 0x14 else 0
    getFails := fun _ => false
    setFails := fun _ => false }

theorem make_mutable_spec_witness :
    make_mutable ONESHOT_PATH noFileFs = .error (.openFailed ONESHOT_PATH) ∧
    ∃ r, bracketWrite ONESHOT_PATH immutableFs (fun s => (false, s)) = .ok r ∧
      r.2.attrs 3 = immutableFs.attrs 3 ∧ r.2.attrs 3 &&& FS_IMMUTABLE_FL ≠ 0 := by
  have h1 := (make_mutable_spec ONESHOT_PATH noFileFs 0 (fun s => (true, s))).1 rfl
  have h3 := (make_mutable_spec ONESHOT_PATH immutableFs 3 (fun s => (false, s))).2.2
    rfl rfl rfl (by decide) rfl
  exact ⟨h1, h3⟩

/-! ### Claim C9 -/

/-- **C9**: the Linux `remove_oneshot` clears immutability and deletes
the backing file, treating an already-absent file as success; but the
Windows path, documented in the source as writing a zero-length value to
delete the variable, actually hands the store the two-byte buffer
`[0, 0]` — `write_utf16_string` appends a NUL terminator to the empty
string — so the written value does not have size 0. -/
theorem remove_oneshot_eval :
    remove_oneshot_windows_buffer = [0, 0] ∧
    remove_oneshot_windows_buffer.length ≠ 0 ∧
    (∀ fs : FsState, fs.files ONESHOT_PATH = none →
      ∃ fs2, remove_oneshot_linux fs = .ok fs2 ∧ fs2.files ONESHOT_PATH = none) ∧
    (∀ (fs : FsState) (fd : Nat), fs.files ONESHOT_PATH = some fd →
      fs.setFails fd = false →
      ∃ fs2, remove_oneshot_linux fs = .ok fs2 ∧ fs2.files ONESHOT_PATH = none) := by
  refine ⟨rfl, by decide, ?_, ?_⟩
  · intro fs hnone
    refine ⟨removeFile fs ONESHOT_PATH, ?_, ?_⟩
    · simp only [remove_oneshot_linux, hnone]
    · simp [removeFile]
  · intro fs fd hsome hset
    simp only [remove_oneshot_linux, hsome, hset, Bool.false_eq_true, if_false]
    exact ⟨_, rfl, by simp [removeFile]⟩

theorem remove_oneshot_eval_witness :
    ∃ fs2, remove_oneshot_linux noFileFs = .ok fs2 ∧ fs2.files ONESHOT_PATH = none :=
  remove_oneshot_eval.2.2.1 noFileFs rfl

end Sdboot
